import Mathlib

/-!
Verification of the patch-extraction module of the tiatoolbox repository
(`tiatoolbox/tools/patchextraction.py`).

The development shallowly embeds the data model and the operations of the
module: the geometry helper `get_last_steps`, the point-centred extractor
`PointsPatchExtractor` (`extract_patches`, `merge_patches`), the stub
window extractors and the factory `get_patch_extractor`.  Machine-level
caveats of the source are recorded next to each definition.
-/

namespace PatchExtraction

/-- The Python exceptions raised by the code paths modelled here.
`exception` models a bare `Exception(message)`; `methodNotSupported`
models the `MethodNotSupported` class of `tiatoolbox.utils.exceptions`
(raised either as the bare class, message `none`, or with a message). -/
inductive PyError where
  | typeError
  | notImplementedError
  | zeroDivisionError
  | methodNotSupported (message : Option String)
  | exception (message : String)

/-- An in-memory image (a 3-dimensional ndarray): height, width, channel
depth, and a total pixel function.  Out-of-range indices carry
unspecified values; theorems about pixel contents only ever read
in-range indices. -/
structure Img (α : Type) where
  h : Nat
  w : Nat
  d : Nat
  pix : Int → Int → Int → α

/-- Reflect an index onto `[0, n)` the way numpy's `"symmetric"` padding
mode does: mirrored copies of the `n` source indices tile the line with
period `2 * n`. -/
def symIndex (n : Nat) (i : Int) : Int :=
  let m := i.emod (2 * (n : Int))
  if m < (n : Int) then m else 2 * (n : Int) - 1 - m

/-- `np.lib.pad(image, ((pad_y, pad_y), (pad_x, pad_x), (0, 0)), "symmetric")`:
`pad_y` mirrored rows on top and bottom, `pad_x` mirrored columns on each
side, channels untouched. -/
def padSymmetric (img : Img α) (pad_y pad_x : Nat) : Img α :=
  ⟨img.h + 2 * pad_y, img.w + 2 * pad_x, img.d,
    fun i j c => img.pix (symIndex img.h (i - pad_y)) (symIndex img.w (j - pad_x)) c⟩

/-- One row of the input-points table: `row[0]` is the label, `row[1]`
the x coordinate and `row[2]` the y coordinate.  The source copies the
coordinates into an integer array (`dtype=np.int`), hence `Int`. -/
structure PointRow where
  label : Int
  x : Int
  y : Int

/-- The stored `input_points` attribute: either a points table (an
ndarray) or any other value (`None`, a csv/json path string, ...), which
the extractor rejects. -/
inductive InputPoints where
  | ndarray (pts : List PointRow)
  | other

/-- The `input_img` argument: a path string (read through `imread`), an
in-memory ndarray, or anything else (rejected). -/
inductive InputImg (α : Type) where
  | str (path : String)
  | ndarray (img : Img α)
  | other

/-- The attributes of a `PointsPatchExtractor` object (the source class
stores exactly these; the patch/pad fields are declared by the abstract
base class `PatchExtractor`). -/
structure PointsPatchExtractor where
  img_patch_h : Nat
  img_patch_w : Nat
  pad_y : Nat
  pad_x : Nat
  input_points : InputPoints
  num_examples_per_patch : Nat

/-- Python's `range(start, stop)` over the integers. -/
def intRange (start stop : Int) : List Int :=
  (List.range (stop - start).toNat).map (fun (k : Nat) => start + (k : Int))

/-- The `(start_location, end_location)` pair computed per point.  For
`num_examples_per_patch > 1` the source takes
`root = np.sqrt(num_examples_per_patch)`,
`start_location = -int(root / 2)` and
`end_location = int(root + start_location)`; both `int(...)` truncations
of the nonnegative float agree with `Nat.sqrt`-based floor arithmetic.
Otherwise `start_location = 0`, `end_location = 1`. -/
def offsetRange (num_examples_per_patch : Nat) : Int × Int :=
  if 1 < num_examples_per_patch then
    let root := Nat.sqrt num_examples_per_patch
    let start_location : Int := -((root / 2 : Nat) : Int)
    let end_location : Int := (root : Int) + start_location
    (start_location, end_location)
  else
    (0, 1)

/-- The per-axis sampling offsets `range(start_location, end_location)`. -/
def offsetList (num_examples_per_patch : Nat) : List Int :=
  intRange (offsetRange num_examples_per_patch).1 (offsetRange num_examples_per_patch).2

/-- A patch: the pixel function of the window copied out of the padded
image (same channel depth and dtype as the image). -/
def Patch (α : Type) : Type := Int → Int → Int → α

/-- The `(label, id, patch)` triples the inner double loop produces for
one point row: coordinates are shifted by `pad - 1`
("Python index starts from 0" in the source), and for every row offset
`h` and column offset `w` the window of size `patch_h × patch_w` with
top-left `(cell_location[0] - h - (patch_h - 1)/2,
cell_location[1] - w - (patch_w - 1)/2)` is sliced out of the padded
image.  The numpy slice is embedded as the window function; it agrees
with the source exactly when the window lies inside the padded image
(the content theorems hypothesise that), while out of range the source's
slice assignment raises instead. -/
def pointEntries (e : PointsPatchExtractor) (image : Img α) (row : PointRow)
    (cell_tot : Nat) : List (Int × Nat × Patch α) :=
  let cy : Int := row.y + (e.pad_y : Int) - 1
  let cx : Int := row.x + (e.pad_x : Int) - 1
  (((offsetList e.num_examples_per_patch).map (fun h =>
    (offsetList e.num_examples_per_patch).map (fun w =>
      let start_h : Int := cy - h - (((e.img_patch_h - 1) / 2 : Nat) : Int)
      let start_w : Int := cx - w - (((e.img_patch_w - 1) / 2 : Nat) : Int)
      ((row.label, cell_tot,
        fun i j c => image.pix (start_h + i) (start_w + j) c) :
          Int × Nat × Patch α))))).flatten

/-- The outer loop over the point rows: `cell_tot` starts at 1 and is
incremented once per point (not once per patch). -/
def extractLoop (e : PointsPatchExtractor) (image : Img α) :
    List PointRow → Nat → List (Int × Nat × Patch α)
  | [], _ => []
  | row :: rest, cell_tot =>
      pointEntries e image row cell_tot ++ extractLoop e image rest (cell_tot + 1)

/-- The source preallocates `num_patches_img` output slots (`np.zeros`
for the patch array, a list of empty-list sentinels for labels and ids)
and then overwrites slot `iter_tot` for each produced entry; when fewer
entries than slots are produced the remaining slots keep the sentinel. -/
def padToLen (n : Nat) (sentinel : β) (l : List β) : List β :=
  l ++ List.replicate (n - l.length) sentinel

/-- The `input_points` check at the top of `extract_patches`. -/
def resolvePoints : InputPoints → Except PyError (List PointRow)
  | .ndarray pts => .ok pts
  | .other => .error (.exception "Please input correct csv, json path or csv data")

/-- The `input_img` check: a `str` is loaded through `imread`, an ndarray
is used directly, anything else raises. -/
def resolveImage (imread : String → Img α) : InputImg α → Except PyError (Img α)
  | .str path => .ok (imread path)
  | .ndarray img => .ok img
  | .other => .error (.exception "Please input correct image path or numpy array")

/-- `PointsPatchExtractor.extract_patches`: validate the stored points,
resolve the image argument, pad symmetrically, then emit
`len(points) * num_examples_per_patch` slots filled by the double loop
over points and grid offsets.  Patch slots start as zeros (the `default`
pixel function) and label/id slots start as the empty-list sentinel
(`none` here). -/
def PointsPatchExtractor.extract_patches [Inhabited α] (e : PointsPatchExtractor)
    (imread : String → Img α) (input_img : InputImg α) :
    Except PyError (List (Patch α) × List (Option Int) × List (Option Nat)) :=
  match resolvePoints e.input_points with
  | .error err => .error err
  | .ok input_points =>
    match resolveImage imread input_img with
    | .error err => .error err
    | .ok image₀ =>
      let image := padSymmetric image₀ e.pad_y e.pad_x
      let num_patches_img := input_points.length * e.num_examples_per_patch
      let entries := extractLoop e image input_points 1
      .ok
        (padToLen num_patches_img (fun _ _ _ => default) (entries.map (fun t => t.2.2)),
         padToLen num_patches_img none (entries.map (fun t => some t.1)),
         padToLen num_patches_img none (entries.map (fun t => some t.2.1)))

/-- `PointsPatchExtractor.merge_patches` unconditionally raises
`MethodNotSupported`; the declared (never produced) result would be the
merged image-level prediction. -/
def PointsPatchExtractor.merge_patches (α β : Type) (e : PointsPatchExtractor)
    (patches : Option β) : Except PyError (Img α) :=
  .error (.methodNotSupported (some "Merge patches not supported for PointsPatchExtractor"))

/-- `PatchExtractor.get_last_steps`:
`nr_step = math.ceil((image_dim - label_patch_dim) / stride)`,
`last_step = (nr_step + 1) * stride`, returned as `int(last_step)` (a
no-op once all inputs are integers).  A zero stride raises
`ZeroDivisionError` in the source. -/
def get_last_steps (image_dim label_patch_dim stride : Int) : Except PyError Int :=
  if stride = 0 then .error .zeroDivisionError
  else
    let nr_step : Int := ⌈(((image_dim - label_patch_dim : Int) : ℚ) / ((stride : Int) : ℚ))⌉
    .ok ((nr_step + 1) * stride)

/-- CPython's `object.__init__` (Objects/typeobject.c, `object_init`):
called with excess arguments it raises `TypeError` when the receiving
class overrides `__init__`, and also when it overrides neither
`__init__` nor `__new__`. -/
def object_init (excess_args init_overridden new_overridden : Bool) : Except PyError Unit :=
  if excess_args then
    if init_overridden then .error .typeError
    else if new_overridden then .ok ()
    else .error .typeError
  else .ok ()

/-- `PointsPatchExtractor.__init__`.  The source calls
`super(PatchExtractor, self).__init__(img_patch_h=..., img_patch_w=...,
pad_y=..., pad_x=...)`: in the method-resolution order of
`PointsPatchExtractor` the class after `PatchExtractor` is `ABC`, whose
`__init__` is `object.__init__`, so the call hands excess keyword
arguments to `object.__init__` while the class overrides `__init__` and
not `__new__` — a `TypeError`.  The remainder of the body is therefore
unreachable (and even on success the patch/pad attributes set by the
skipped `PatchExtractor.__init__` would have stayed unset). -/
def PointsPatchExtractor.construct (img_patch_h img_patch_w pad_y pad_x : Nat)
    (input_points : InputPoints) (num_examples_per_patch : Nat) :
    Except PyError PointsPatchExtractor :=
  match object_init true true false with
  | .error err => .error err
  | .ok _ =>
      .ok ⟨img_patch_h, img_patch_w, pad_y, pad_x, input_points, num_examples_per_patch⟩

/-- The attributes `FixedWindowPatchExtractor.__init__` would store. -/
structure FixedWindowPatchExtractor where
  stride_h : Nat
  stride_w : Nat

/-- `FixedWindowPatchExtractor.__init__`: the same MRO-skipping `super`
call raises `TypeError` first; even without it the body ends in
`raise NotImplementedError`. -/
def FixedWindowPatchExtractor.construct (img_patch_h img_patch_w stride_h stride_w : Nat) :
    Except PyError FixedWindowPatchExtractor :=
  match object_init true true false with
  | .error err => .error err
  | .ok _ => .error .notImplementedError

/-- The attributes `VariableWindowPatchExtractor.__init__` would store. -/
structure VariableWindowPatchExtractor where
  stride_h : Nat
  stride_w : Nat
  label_patch_h : Option Nat
  label_patch_w : Option Nat

/-- `VariableWindowPatchExtractor.__init__`: same shape as the fixed
window constructor — `TypeError` from the skipping `super` call, with an
unconditional `raise NotImplementedError` behind it. -/
def VariableWindowPatchExtractor.construct (img_patch_h img_patch_w stride_h stride_w : Nat)
    (label_patch_h label_patch_w : Option Nat) :
    Except PyError VariableWindowPatchExtractor :=
  match object_init true true false with
  | .error err => .error err
  | .ok _ => .error .notImplementedError

/-- Python's `str.lower()`, character by character (adequate for the
ASCII method names the factory compares against). -/
def strLower (s : String) : String :=
  ⟨s.data.map Char.toLower⟩

/-- The strategy instance a successful factory call would return. -/
inductive PatchExtractorInstance where
  | points (e : PointsPatchExtractor)
  | fixedWindow (e : FixedWindowPatchExtractor)
  | variableWindow (e : VariableWindowPatchExtractor)

/-- `get_patch_extractor(method_name, img_patch_h=224, img_patch_w=224,
input_points=None, pad_y=0, pad_x=0)`: case-insensitive dispatch on
`method_name`; the point branch constructs a `PointsPatchExtractor`
(default `num_examples_per_patch=9`), the window branches construct the
stub classes with their default strides, anything else raises the bare
`MethodNotSupported`. -/
def get_patch_extractor (method_name : String) (img_patch_h img_patch_w : Nat)
    (input_points : InputPoints) (pad_y pad_x : Nat) :
    Except PyError PatchExtractorInstance :=
  if strLower method_name = "point" then
    (PointsPatchExtractor.construct img_patch_h img_patch_w pad_y pad_x input_points 9).map
      PatchExtractorInstance.points
  else if strLower method_name = "fixedwindow" then
    (FixedWindowPatchExtractor.construct img_patch_h img_patch_w 1 1).map
      PatchExtractorInstance.fixedWindow
  else if strLower method_name = "variablewindow" then
    (VariableWindowPatchExtractor.construct img_patch_h img_patch_w 1 1 none none).map
      PatchExtractorInstance.variableWindow
  else
    .error (.methodNotSupported none)

/-- The documented coverage precondition of the specification (§4.3):
per axis, `pad >= patch_size // 2 + max_offset`, with `side` the side of
the offsets grid (so the maximal offset magnitude is `side / 2`).  Under
it every sliced window lies inside the padded image, so the embedded
window functions agree with the source's numpy slices. -/
abbrev padCovers (e : PointsPatchExtractor) (side : Nat) : Prop :=
  e.img_patch_h / 2 + side / 2 ≤ e.pad_y ∧ e.img_patch_w / 2 + side / 2 ≤ e.pad_x

/-- All points lie in the (1-indexed, per the source's `pad - 1` shift)
area of the unpadded image. -/
abbrev pointsInImage (pts : List PointRow) (img : Img α) : Prop :=
  ∀ p ∈ pts, 1 ≤ p.x ∧ p.x ≤ (img.w : Int) ∧ 1 ≤ p.y ∧ p.y ≤ (img.h : Int)

end PatchExtraction

namespace PatchExtraction

/-! ### Helper lemmas about the embedded operations -/

theorem intRange_length (start stop : Int) :
    (intRange start stop).length = (stop - start).toNat := by
  rw [intRange, List.length_map, List.length_range]

theorem intRange_getElem? (start stop : Int) (k : Nat) (hk : k < (stop - start).toNat) :
    (intRange start stop)[k]? = some (start + (k : Int)) := by
  rw [intRange, List.getElem?_map, List.getElem?_range hk, Option.map_some']

theorem mem_intRange (start stop x : Int) :
    x ∈ intRange start stop ↔ start ≤ x ∧ x < stop := by
  simp only [intRange, List.mem_map, List.mem_range]
  constructor
  · rintro ⟨k, hk, rfl⟩
    constructor <;> omega
  · rintro ⟨h1, h2⟩
    exact ⟨(x - start).toNat, by omega, by omega⟩

theorem offsetRange_eq (n side : Nat) (hside : side * side = n) (hodd : side % 2 = 1) :
    offsetRange n = (-((side / 2 : Nat) : Int), (side : Int) - ((side / 2 : Nat) : Int)) := by
  rcases Nat.lt_or_ge 1 n with h1 | h1
  · have hroot : Nat.sqrt n = side := by rw [← hside, Nat.sqrt_eq]
    unfold offsetRange
    rw [if_pos h1, hroot]
    simp only [Prod.mk.injEq]
    exact ⟨trivial, by omega⟩
  · have h2 : ¬ 2 ≤ side := fun hc => by
      have := Nat.mul_le_mul hc hc
      omega
    have hs1 : side = 1 := by omega
    subst hs1
    have hn1 : n = 1 := by omega
    rw [hn1]
    decide

theorem offsetList_eq (n side : Nat) (hside : side * side = n) (hodd : side % 2 = 1) :
    offsetList n =
      intRange (-((side / 2 : Nat) : Int)) ((side : Int) - ((side / 2 : Nat) : Int)) := by
  rw [offsetList, offsetRange_eq n side hside hodd]

theorem offsetList_length (n side : Nat) (hside : side * side = n) (hodd : side % 2 = 1) :
    (offsetList n).length = side := by
  rw [offsetList_eq n side hside hodd, intRange_length]
  omega

theorem offsetList_getElem? (n side : Nat) (hside : side * side = n) (hodd : side % 2 = 1)
    (a : Nat) (ha : a < side) :
    (offsetList n)[a]? = some ((a : Int) - ((side / 2 : Nat) : Int)) := by
  rw [offsetList_eq n side hside hodd, intRange_getElem? _ _ a (by omega)]
  congr 1
  omega

theorem pointEntries_length (e : PointsPatchExtractor) (image : Img α) (row : PointRow)
    (c : Nat) :
    (pointEntries e image row c).length =
      (offsetList e.num_examples_per_patch).length *
        (offsetList e.num_examples_per_patch).length := by
  simp only [pointEntries, List.length_flatten, List.map_map, Function.comp_def,
    List.length_map]
  rw [List.map_const', List.sum_replicate, smul_eq_mul]

theorem flatten_map_getElem? {γ δ : Type _} {f : γ → List δ} {m : Nat} (l : List γ) :
    ∀ (a b : Nat) (x : γ), (∀ y ∈ l, (f y).length = m) → l[a]? = some x → b < m →
      ((l.map f).flatten)[a * m + b]? = (f x)[b]? := by
  induction l with
  | nil => intro a b x hm ha hb; simp at ha
  | cons y ys ih =>
    intro a b x hm ha hb
    rcases a with _ | a
    · simp only [List.getElem?_cons_zero, Option.some.injEq] at ha
      subst ha
      simp only [List.map_cons, List.flatten_cons, Nat.zero_mul, Nat.zero_add]
      rw [List.getElem?_append,
        if_pos (by rw [hm y (List.mem_cons_self _ _)]; exact hb)]
    · simp only [List.getElem?_cons_succ] at ha
      simp only [List.map_cons, List.flatten_cons]
      have hsm : (a + 1) * m = a * m + m := Nat.succ_mul a m
      rw [List.getElem?_append_right (by rw [hm y (List.mem_cons_self _ _)]; omega)]
      rw [hm y (List.mem_cons_self _ _)]
      have hsub : (a + 1) * m + b - m = a * m + b := by omega
      rw [hsub]
      exact ih a b x (fun z hz => hm z (List.mem_cons_of_mem _ hz)) ha hb

theorem extractLoop_length (e : PointsPatchExtractor) (image : Img α)
    (pts : List PointRow) (c : Nat) :
    (extractLoop e image pts c).length =
      pts.length * ((offsetList e.num_examples_per_patch).length *
        (offsetList e.num_examples_per_patch).length) := by
  induction pts generalizing c with
  | nil => simp [extractLoop]
  | cons p rest ih =>
    simp only [extractLoop, List.length_append, List.length_cons, pointEntries_length, ih]
    ring

theorem extractLoop_getElem? (e : PointsPatchExtractor) (image : Img α) (g : Nat)
    (hg : ∀ row c', (pointEntries e image row c').length = g) (hgpos : 0 < g)
    (pts : List PointRow) :
    ∀ (c i : Nat) (p : PointRow), pts[i / g]? = some p →
      (extractLoop e image pts c)[i]? =
        (pointEntries e image p (c + i / g))[i % g]? := by
  induction pts with
  | nil => intro c i p hp; simp at hp
  | cons q rest ih =>
    intro c i p hp
    by_cases hi : i < g
    · have hdiv : i / g = 0 := Nat.div_eq_of_lt hi
      have hmod : i % g = i := Nat.mod_eq_of_lt hi
      rw [hdiv] at hp
      simp only [List.getElem?_cons_zero, Option.some.injEq] at hp
      subst hp
      simp only [extractLoop]
      rw [List.getElem?_append, if_pos (by rw [hg]; exact hi), hdiv, hmod, Nat.add_zero]
    · push_neg at hi
      obtain ⟨j, rfl⟩ : ∃ j, i = g + j := ⟨i - g, by omega⟩
      have hdiv : (g + j) / g = j / g + 1 := by
        rw [Nat.add_comm g j, Nat.add_div_right _ hgpos]
      have hmod : (g + j) % g = j % g := Nat.add_mod_left g j
      rw [hdiv] at hp
      simp only [List.getElem?_cons_succ] at hp
      simp only [extractLoop]
      rw [List.getElem?_append_right (by rw [hg]; omega), hg]
      have hsub : g + j - g = j := by omega
      rw [hsub, ih (c + 1) j p hp, hdiv, hmod]
      congr 2
      omega

theorem padToLen_length {β : Type _} (n : Nat) (d : β) (l : List β) (h : l.length ≤ n) :
    (padToLen n d l).length = n := by
  simp only [padToLen, List.length_append, List.length_replicate]
  omega

theorem padToLen_getElem?_left {β : Type _} (n : Nat) (d : β) (l : List β) (i : Nat)
    (h : i < l.length) : (padToLen n d l)[i]? = l[i]? := by
  rw [padToLen, List.getElem?_append, if_pos h]

theorem extract_patches_ok {α : Type} [Inhabited α] (e : PointsPatchExtractor)
    (imread : String → Img α) (input_img : InputImg α)
    (pts : List PointRow) (img : Img α)
    (hpts : e.input_points = InputPoints.ndarray pts)
    (himg : resolveImage imread input_img = Except.ok img) :
    e.extract_patches imread input_img =
      Except.ok
        (padToLen (pts.length * e.num_examples_per_patch) (fun _ _ _ => default)
           ((extractLoop e (padSymmetric img e.pad_y e.pad_x) pts 1).map (fun t => t.2.2)),
         padToLen (pts.length * e.num_examples_per_patch) none
           ((extractLoop e (padSymmetric img e.pad_y e.pad_x) pts 1).map (fun t => some t.1)),
         padToLen (pts.length * e.num_examples_per_patch) none
           ((extractLoop e (padSymmetric img e.pad_y e.pad_x) pts 1).map
             (fun t => some t.2.1))) := by
  unfold PointsPatchExtractor.extract_patches
  rw [hpts, himg]
  simp [resolvePoints]

end PatchExtraction

namespace PatchExtraction

/-- Locating the entry for point index `t` and grid indices `(a, b)` at
flat index `t * num_examples_per_patch + (a * side + b)`: its label is
the point's label, its id is `cell_tot₀ + t`, and its patch is the
window whose top-left corner is
`(y + pad_y - 1 - (a - side/2) - (patch_h - 1)/2,
  x + pad_x - 1 - (b - side/2) - (patch_w - 1)/2)`. -/
theorem extractLoop_entry {α : Type} (e : PointsPatchExtractor) (image : Img α)
    (pts : List PointRow) (c : Nat) (side : Nat)
    (hside : side * side = e.num_examples_per_patch) (hodd : side % 2 = 1)
    (t a b : Nat) (p : PointRow) (ht : pts[t]? = some p) (ha : a < side) (hb : b < side) :
    (extractLoop e image pts c)[t * e.num_examples_per_patch + (a * side + b)]? =
      some (p.label, c + t, fun i j ch =>
        image.pix
          ((p.y + (e.pad_y : Int) - 1 - ((a : Int) - ((side / 2 : Nat) : Int)) -
              (((e.img_patch_h - 1) / 2 : Nat) : Int)) + i)
          ((p.x + (e.pad_x : Int) - 1 - ((b : Int) - ((side / 2 : Nat) : Int)) -
              (((e.img_patch_w - 1) / 2 : Nat) : Int)) + j) ch) := by
  have hL : (offsetList e.num_examples_per_patch).length = side :=
    offsetList_length _ side hside hodd
  have hspos : 0 < side := by omega
  have hgpos : 0 < e.num_examples_per_patch := by
    rw [← hside]; exact Nat.mul_pos hspos hspos
  have hk : a * side + b < e.num_examples_per_patch := by
    rw [← hside]
    calc a * side + b < a * side + side := by omega
      _ = (a + 1) * side := by ring
      _ ≤ side * side := Nat.mul_le_mul_right side (by omega)
  have hdiv : (t * e.num_examples_per_patch + (a * side + b)) / e.num_examples_per_patch
      = t := by
    rw [Nat.mul_comm t, Nat.mul_add_div hgpos, Nat.div_eq_of_lt hk, Nat.add_zero]
  have hmod : (t * e.num_examples_per_patch + (a * side + b)) % e.num_examples_per_patch
      = a * side + b := by
    rw [Nat.mul_comm t, Nat.mul_add_mod, Nat.mod_eq_of_lt hk]
  have hglen : ∀ row c', (pointEntries e image row c').length = e.num_examples_per_patch := by
    intro row c'
    rw [pointEntries_length, hL, hside]
  rw [extractLoop_getElem? e image _ hglen hgpos pts c _ p (by rw [hdiv]; exact ht),
    hdiv, hmod]
  simp only [pointEntries]
  rw [flatten_map_getElem? _ a b _
    (fun y _ => by rw [List.length_map, hL])
    (offsetList_getElem? _ side hside hodd a ha) (by omega : b < side)]
  rw [List.getElem?_map, offsetList_getElem? _ side hside hodd b hb, Option.map_some']

end PatchExtraction

namespace PatchExtraction

/-! ### Claim theorems -/

/-- C2: for every image_dim, patch_dim and positive stride,
get_last_steps returns `(ceil((image_dim - patch_dim) / stride) + 1) * stride`
(the `int(...)` truncation is the identity on this integer value); in
particular `get_last_steps 10 4 2 = 8`, and negative results come out
unhindered when patch_dim exceeds image_dim, e.g.
`get_last_steps 3 10 2 = -4`. -/
theorem c2_get_last_steps_formula (image_dim label_patch_dim stride : Int)
    (hs : 0 < stride) :
    get_last_steps image_dim label_patch_dim stride =
        Except.ok ((⌈((image_dim : ℚ) - (label_patch_dim : ℚ)) / (stride : ℚ)⌉ + 1) *
          stride) ∧
      get_last_steps 10 4 2 = Except.ok 8 ∧
      get_last_steps 3 10 2 = Except.ok (-4) := by
  refine ⟨?_, ?_, ?_⟩
  · simp only [get_last_steps, if_neg (show ¬stride = 0 by omega)]
    push_cast
    rfl
  · simp only [get_last_steps]
    norm_num
  · simp only [get_last_steps]
    norm_num
    rw [show ⌈(-(7 / 2) : ℚ)⌉ = -3 from by
      rw [Int.ceil_eq_iff]
      constructor <;> norm_num]
    norm_num

/-- C2 witness at the boundary input (10, 4, 2). -/
theorem c2_get_last_steps_formula_witness :
    get_last_steps 10 4 2 =
        Except.ok ((⌈((10 : ℚ) - (4 : ℚ)) / (2 : ℚ)⌉ + 1) * 2) ∧
      get_last_steps 10 4 2 = Except.ok 8 ∧
      get_last_steps 3 10 2 = Except.ok (-4) :=
  c2_get_last_steps_formula 10 4 2 (by norm_num)

/-- C4: for num_examples_per_patch with an odd integer square root
`side`, the per-axis sampling offsets are exactly the integers from
`-(side / 2)` to `side / 2` inclusive (in increasing order) — the range
centred on zero — and the `num_examples_per_patch = 1` special-case
branch produces `[0]`, coinciding with the general formula. -/
theorem c4_offsets_centered (n side : Nat) (x : Int)
    (hside : side * side = n) (hodd : side % 2 = 1) :
    offsetList n =
        (List.range side).map
          (fun (k : Nat) => -((side / 2 : Nat) : Int) + (k : Int)) ∧
      (x ∈ offsetList n ↔
        -((side / 2 : Nat) : Int) ≤ x ∧ x ≤ ((side / 2 : Nat) : Int)) ∧
      offsetList 1 = [0] := by
  refine ⟨?_, ?_, by decide⟩
  · rw [offsetList_eq n side hside hodd, intRange]
    have hlen :
        ((side : Int) - ((side / 2 : Nat) : Int) - -((side / 2 : Nat) : Int)).toNat =
          side := by omega
    rw [hlen]
  · rw [offsetList_eq n side hside hodd, mem_intRange]
    omega

/-- C4 witness at n = 9 (side 3) and the probe offset x = 1. -/
theorem c4_offsets_centered_witness :
    offsetList 9 =
        (List.range 3).map (fun (k : Nat) => -((3 / 2 : Nat) : Int) + (k : Int)) ∧
      ((1 : Int) ∈ offsetList 9 ↔
        -((3 / 2 : Nat) : Int) ≤ (1 : Int) ∧ (1 : Int) ≤ ((3 / 2 : Nat) : Int)) ∧
      offsetList 1 = [0] :=
  c4_offsets_centered 9 3 1 rfl rfl

/-- C6: on the spec's documented validity domain — `hvalid` says that
whenever the inputs are well-typed (the stored points an ndarray and the
image argument resolving through the loader, which is total here per the
spec's external-interface contract that paths resolve),
num_examples_per_patch is an odd square of `side`, the coverage
precondition holds and the points lie in the image — extract_patches
raises exactly when the stored points are not an ndarray or the image
argument is neither a path string nor an ndarray; any raised error is
one of the two fixed invalid-input messages, and (the result being a
single `Except` value) a failing call produces no patches.  The domain
hypothesis matters: outside it the source's slice assignment can raise a
ValueError that the embedded total windows do not reproduce. -/
theorem c6_invalid_input_iff {α : Type} [Inhabited α] (e : PointsPatchExtractor)
    (imread : String → Img α) (input_img : InputImg α) (side : Nat)
    (hvalid : ∀ (pts : List PointRow) (img : Img α),
      e.input_points = InputPoints.ndarray pts →
      resolveImage imread input_img = Except.ok img →
      side * side = e.num_examples_per_patch ∧ side % 2 = 1 ∧
        padCovers e side ∧ pointsInImage pts img) :
    ((∃ err, e.extract_patches imread input_img = Except.error err) ↔
        (e.input_points = InputPoints.other ∨ input_img = InputImg.other)) ∧
      ∀ err, e.extract_patches imread input_img = Except.error err →
        err = PyError.exception "Please input correct csv, json path or csv data" ∨
        err = PyError.exception "Please input correct image path or numpy array" := by
  cases hpts : e.input_points with
  | ndarray pts =>
    cases input_img with
    | str path =>
      rw [extract_patches_ok e imread (InputImg.str path) pts (imread path) hpts rfl]
      constructor
      · simp
      · intro err h
        simp at h
    | ndarray img =>
      rw [extract_patches_ok e imread (InputImg.ndarray img) pts img hpts rfl]
      constructor
      · simp
      · intro err h
        simp at h
    | other =>
      unfold PointsPatchExtractor.extract_patches
      rw [hpts]
      simp [resolvePoints, resolveImage]
  | other =>
    unfold PointsPatchExtractor.extract_patches
    rw [hpts]
    simp [resolvePoints]

/-- C7 counterexample: with all default arguments,
`get_patch_extractor "point"` does not return a constructed
point-centred extractor — the MRO-skipping `super().__init__` call in
`PointsPatchExtractor.__init__` raises `TypeError`. -/
theorem c7_counterexample_point_raises :
    get_patch_extractor "point" 224 224 InputPoints.other 0 0 =
      Except.error PyError.typeError := rfl

/-- C7 amended: get_patch_extractor matches method_name
case-insensitively, but no branch returns an instance: the "point",
"fixedwindow" and "variablewindow" branches all raise TypeError out of
the constructors' skipping `super().__init__` calls (the window
constructors would raise NotImplementedError even without that), and any
other name raises the bare MethodNotSupported. -/
theorem c7_factory_dispatch (method_name : String) (img_patch_h img_patch_w : Nat)
    (input_points : InputPoints) (pad_y pad_x : Nat) :
    (strLower method_name = "point" →
      get_patch_extractor method_name img_patch_h img_patch_w input_points pad_y pad_x =
        Except.error PyError.typeError) ∧
    (strLower method_name = "fixedwindow" →
      get_patch_extractor method_name img_patch_h img_patch_w input_points pad_y pad_x =
        Except.error PyError.typeError) ∧
    (strLower method_name = "variablewindow" →
      get_patch_extractor method_name img_patch_h img_patch_w input_points pad_y pad_x =
        Except.error PyError.typeError) ∧
    (strLower method_name ≠ "point" → strLower method_name ≠ "fixedwindow" →
      strLower method_name ≠ "variablewindow" →
      get_patch_extractor method_name img_patch_h img_patch_w input_points pad_y pad_x =
        Except.error (PyError.methodNotSupported none)) := by
  refine ⟨fun h => ?_, fun h => ?_, fun h => ?_, fun h1 h2 h3 => ?_⟩
  · rw [get_patch_extractor, if_pos h]
    rfl
  · rw [get_patch_extractor, if_neg (by rw [h]; decide), if_pos h]
    rfl
  · rw [get_patch_extractor, if_neg (by rw [h]; decide), if_neg (by rw [h]; decide),
      if_pos h]
    rfl
  · rw [get_patch_extractor, if_neg h1, if_neg h2, if_neg h3]

/-- C7 witness: mixed-case "Point" hits the point branch (raising
TypeError), and "unknown" raises MethodNotSupported. -/
theorem c7_factory_dispatch_witness :
    get_patch_extractor "Point" 224 224 InputPoints.other 0 0 =
        Except.error PyError.typeError ∧
      get_patch_extractor "unknown" 224 224 InputPoints.other 0 0 =
        Except.error (PyError.methodNotSupported none) :=
  ⟨(c7_factory_dispatch "Point" 224 224 InputPoints.other 0 0).1 (by decide),
   (c7_factory_dispatch "unknown" 224 224 InputPoints.other 0 0).2.2.2
     (by decide) (by decide) (by decide)⟩

/-- C8: merge_patches on a point-centred extractor raises
MethodNotSupported with its fixed message for every patches argument
(including None) and never returns a merged image. -/
theorem c8_merge_patches_unsupported (α β : Type) (e : PointsPatchExtractor)
    (patches : Option β) :
    PointsPatchExtractor.merge_patches α β e patches =
        Except.error (PyError.methodNotSupported
          (some "Merge patches not supported for PointsPatchExtractor")) ∧
      ∀ img : Img α, PointsPatchExtractor.merge_patches α β e patches ≠ Except.ok img := by
  refine ⟨rfl, fun img h => ?_⟩
  simp [PointsPatchExtractor.merge_patches] at h

/-- C10: the points check precedes the image check — with a non-ndarray
points store, extract_patches fails with the points message for every
image argument, and the result does not depend on the image argument or
on the image loader (so the image is never loaded). -/
theorem c10_points_before_image {α : Type} [Inhabited α] (e : PointsPatchExtractor)
    (imread imread' : String → Img α) (input_img input_img' : InputImg α)
    (h : e.input_points = InputPoints.other) :
    e.extract_patches imread input_img =
        Except.error (PyError.exception
          "Please input correct csv, json path or csv data") ∧
      e.extract_patches imread input_img = e.extract_patches imread' input_img' := by
  unfold PointsPatchExtractor.extract_patches
  rw [h]
  exact ⟨rfl, rfl⟩

/-- C10 witness: a concrete extractor holding a non-ndarray points store,
probed with two different loaders and image arguments. -/
theorem c10_points_before_image_witness :
    PointsPatchExtractor.extract_patches ⟨3, 3, 1, 1, InputPoints.other, 9⟩
        (fun _ => (⟨2, 2, 1, fun _ _ _ => (0 : Nat)⟩ : Img Nat)) InputImg.other =
        Except.error (PyError.exception
          "Please input correct csv, json path or csv data") ∧
      PointsPatchExtractor.extract_patches ⟨3, 3, 1, 1, InputPoints.other, 9⟩
          (fun _ => (⟨2, 2, 1, fun _ _ _ => (0 : Nat)⟩ : Img Nat)) InputImg.other =
        PointsPatchExtractor.extract_patches ⟨3, 3, 1, 1, InputPoints.other, 9⟩
          (fun _ => (⟨2, 2, 1, fun _ _ _ => (1 : Nat)⟩ : Img Nat))
          (InputImg.str "img.png") :=
  c10_points_before_image ⟨3, 3, 1, 1, InputPoints.other, 9⟩ _ _ _ _ rfl

end PatchExtraction

namespace PatchExtraction

/-- Every entry the inner double loop produces for one point carries that
point's label and the point's cell counter. -/
theorem pointEntries_mem {α : Type} (e : PointsPatchExtractor) (image : Img α)
    (row : PointRow) (c : Nat) (z : Int × Nat × Patch α)
    (hz : z ∈ pointEntries e image row c) : z.1 = row.label ∧ z.2.1 = c := by
  simp only [pointEntries, List.mem_flatten, List.mem_map] at hz
  obtain ⟨l, ⟨h, hh, rfl⟩, hzl⟩ := hz
  rw [List.mem_map] at hzl
  obtain ⟨w, hw, rfl⟩ := hzl
  exact ⟨rfl, rfl⟩

/-- C1: for every valid input — the stored points an ndarray, the image
argument resolving to an array, num_examples_per_patch a perfect square
with odd root `side`, the points inside the image and the padding
meeting the documented coverage precondition — extract_patches returns a
triple (patches, labels, ids) with
`patches.length = pts.length * num_examples_per_patch` and labels and
ids of that same length. -/
theorem c1_extract_patches_counts {α : Type} [Inhabited α]
    (e : PointsPatchExtractor) (imread : String → Img α) (input_img : InputImg α)
    (pts : List PointRow) (img : Img α) (side : Nat)
    (hpts : e.input_points = InputPoints.ndarray pts)
    (himg : resolveImage imread input_img = Except.ok img)
    (hside : side * side = e.num_examples_per_patch) (hodd : side % 2 = 1)
    (hcov : padCovers e side) (hin : pointsInImage pts img) :
    ∃ patches labels ids,
      e.extract_patches imread input_img = Except.ok (patches, labels, ids) ∧
        patches.length = pts.length * e.num_examples_per_patch ∧
        labels.length = patches.length ∧ ids.length = patches.length := by
  rw [extract_patches_ok e imread input_img pts img hpts himg]
  have hlen : (extractLoop e (padSymmetric img e.pad_y e.pad_x) pts 1).length =
      pts.length * e.num_examples_per_patch := by
    rw [extractLoop_length, offsetList_length _ side hside hodd, hside]
  have hmap : ∀ (γ : Type) (f : Int × Nat × Patch α → γ),
      ((extractLoop e (padSymmetric img e.pad_y e.pad_x) pts 1).map f).length ≤
        pts.length * e.num_examples_per_patch := by
    intro γ f
    rw [List.length_map, hlen]
  refine ⟨_, _, _, rfl, ?_, ?_, ?_⟩
  · exact padToLen_length _ _ _ (hmap _ _)
  · rw [padToLen_length _ _ _ (hmap _ _), padToLen_length _ _ _ (hmap _ _)]
  · rw [padToLen_length _ _ _ (hmap _ _), padToLen_length _ _ _ (hmap _ _)]

/-- C1 witness: one point, 9 examples per patch, 3 × 3 patches, padding 4
on a 5 × 5 × 1 image. -/
theorem c1_extract_patches_counts_witness :
    ∃ patches labels ids,
      PointsPatchExtractor.extract_patches
          ⟨3, 3, 4, 4, InputPoints.ndarray [⟨7, 2, 2⟩], 9⟩
          (fun _ => (⟨5, 5, 1, fun _ _ _ => (0 : Nat)⟩ : Img Nat))
          (InputImg.ndarray ⟨5, 5, 1, fun _ _ _ => (0 : Nat)⟩) =
        Except.ok (patches, labels, ids) ∧
        patches.length = 1 * 9 ∧
        labels.length = patches.length ∧ ids.length = patches.length :=
  c1_extract_patches_counts ⟨3, 3, 4, 4, InputPoints.ndarray [⟨7, 2, 2⟩], 9⟩
    (fun _ => (⟨5, 5, 1, fun _ _ _ => (0 : Nat)⟩ : Img Nat))
    (InputImg.ndarray ⟨5, 5, 1, fun _ _ _ => (0 : Nat)⟩)
    [⟨7, 2, 2⟩] ⟨5, 5, 1, fun _ _ _ => (0 : Nat)⟩ 3 rfl rfl rfl rfl
    (by constructor <;> norm_num) (by decide)

/-- C5: the outputs are emitted in insertion order — the entry at flat
index i (0-based) belongs to point number i / num_examples_per_patch —
with ids[i] = i / num_examples_per_patch + 1 (the identifier increments
once per input point, not once per patch) and labels[i] the label of
point i / num_examples_per_patch. -/
theorem c5_order_ids_labels {α : Type} [Inhabited α]
    (e : PointsPatchExtractor) (imread : String → Img α) (input_img : InputImg α)
    (pts : List PointRow) (img : Img α) (side : Nat) (i : Nat) (p : PointRow)
    (hpts : e.input_points = InputPoints.ndarray pts)
    (himg : resolveImage imread input_img = Except.ok img)
    (hside : side * side = e.num_examples_per_patch) (hodd : side % 2 = 1)
    (hcov : padCovers e side) (hin : pointsInImage pts img)
    (hp : pts[i / e.num_examples_per_patch]? = some p)
    (hi : i < pts.length * e.num_examples_per_patch) :
    ∃ patches labels ids,
      e.extract_patches imread input_img = Except.ok (patches, labels, ids) ∧
        ids[i]? = some (some (i / e.num_examples_per_patch + 1)) ∧
        labels[i]? = some (some p.label) := by
  rw [extract_patches_ok e imread input_img pts img hpts himg]
  have hspos : 0 < side := by omega
  have hgpos : 0 < e.num_examples_per_patch := by
    rw [← hside]
    exact Nat.mul_pos hspos hspos
  have hglen : ∀ row c',
      (pointEntries e (padSymmetric img e.pad_y e.pad_x) row c').length =
        e.num_examples_per_patch := by
    intro row c'
    rw [pointEntries_length, offsetList_length _ side hside hodd, hside]
  have hlen : (extractLoop e (padSymmetric img e.pad_y e.pad_x) pts 1).length =
      pts.length * e.num_examples_per_patch := by
    rw [extractLoop_length, offsetList_length _ side hside hodd, hside]
  have hloop := extractLoop_getElem? e (padSymmetric img e.pad_y e.pad_x)
    _ hglen hgpos pts 1 i p hp
  have hilt : i % e.num_examples_per_patch <
      (pointEntries e (padSymmetric img e.pad_y e.pad_x) p
        (1 + i / e.num_examples_per_patch)).length := by
    rw [hglen]
    exact Nat.mod_lt _ hgpos
  obtain ⟨z, hz⟩ : ∃ z,
      (pointEntries e (padSymmetric img e.pad_y e.pad_x) p
        (1 + i / e.num_examples_per_patch))[i % e.num_examples_per_patch]? = some z := by
    rw [List.getElem?_eq_getElem hilt]
    exact ⟨_, rfl⟩
  have hzmem := pointEntries_mem e (padSymmetric img e.pad_y e.pad_x) p
    (1 + i / e.num_examples_per_patch) z (List.getElem?_mem hz)
  refine ⟨_, _, _, rfl, ?_, ?_⟩
  · rw [padToLen_getElem?_left _ _ _ i (by rw [List.length_map, hlen]; exact hi)]
    rw [List.getElem?_map, hloop, hz, Option.map_some', hzmem.2, Nat.add_comm]
  · rw [padToLen_getElem?_left _ _ _ i (by rw [List.length_map, hlen]; exact hi)]
    rw [List.getElem?_map, hloop, hz, Option.map_some', hzmem.1]

/-- C5 witness: flat index 4 of the single-point, 9-example run carries
id 4 / 9 + 1 = 1 and the point's label 7. -/
theorem c5_order_ids_labels_witness :
    ∃ patches labels ids,
      PointsPatchExtractor.extract_patches
          ⟨3, 3, 4, 4, InputPoints.ndarray [⟨7, 2, 2⟩], 9⟩
          (fun _ => (⟨5, 5, 1, fun _ _ _ => (0 : Nat)⟩ : Img Nat))
          (InputImg.ndarray ⟨5, 5, 1, fun _ _ _ => (0 : Nat)⟩) =
        Except.ok (patches, labels, ids) ∧
        ids[4]? = some (some (4 / 9 + 1)) ∧
        labels[4]? = some (some 7) :=
  c5_order_ids_labels ⟨3, 3, 4, 4, InputPoints.ndarray [⟨7, 2, 2⟩], 9⟩
    (fun _ => (⟨5, 5, 1, fun _ _ _ => (0 : Nat)⟩ : Img Nat))
    (InputImg.ndarray ⟨5, 5, 1, fun _ _ _ => (0 : Nat)⟩)
    [⟨7, 2, 2⟩] ⟨5, 5, 1, fun _ _ _ => (0 : Nat)⟩ 3 4 ⟨7, 2, 2⟩ rfl rfl rfl rfl
    (by constructor <;> norm_num) (by decide) rfl (by norm_num)

end PatchExtraction

namespace PatchExtraction

/-- C3: the patch produced for point index t and the grid offset pair
(hoff, woff) — the a-th row offset and the b-th column offset of the
sampling grid — is the patch_h × patch_w window of the padded image
whose top-left corner is
`(y + pad_y - 1 - hoff - (patch_h - 1)/2, x + pad_x - 1 - woff - (patch_w - 1)/2)`,
provided that window lies inside the padded image (out of range the
source's numpy slice assignment deviates from a plain window); for
num_examples_per_patch = 1 the single patch per point has its centre
pixel at the point's shifted padded coordinates
`(y + pad_y - 1, x + pad_x - 1)`. -/
theorem c3_patch_window {α : Type} [Inhabited α]
    (e : PointsPatchExtractor) (imread : String → Img α) (input_img : InputImg α)
    (pts : List PointRow) (img : Img α) (side t a b : Nat) (p : PointRow)
    (hoff woff top_h top_w : Int)
    (hpts : e.input_points = InputPoints.ndarray pts)
    (himg : resolveImage imread input_img = Except.ok img)
    (hside : side * side = e.num_examples_per_patch) (hodd : side % 2 = 1)
    (ht : pts[t]? = some p) (ha : a < side) (hb : b < side)
    (hoffa : (offsetList e.num_examples_per_patch)[a]? = some hoff)
    (hoffb : (offsetList e.num_examples_per_patch)[b]? = some woff)
    (hth : top_h =
      p.y + (e.pad_y : Int) - 1 - hoff - (((e.img_patch_h - 1) / 2 : Nat) : Int))
    (htw : top_w =
      p.x + (e.pad_x : Int) - 1 - woff - (((e.img_patch_w - 1) / 2 : Nat) : Int))
    (hbh : 0 ≤ top_h ∧
      top_h + (e.img_patch_h : Int) ≤ ((padSymmetric img e.pad_y e.pad_x).h : Int))
    (hbw : 0 ≤ top_w ∧
      top_w + (e.img_patch_w : Int) ≤ ((padSymmetric img e.pad_y e.pad_x).w : Int)) :
    ∃ patches labels ids,
      e.extract_patches imread input_img = Except.ok (patches, labels, ids) ∧
        patches[t * e.num_examples_per_patch + (a * side + b)]? =
          some (fun i j c =>
            (padSymmetric img e.pad_y e.pad_x).pix (top_h + i) (top_w + j) c) ∧
        (e.num_examples_per_patch = 1 → ∀ (ch : Int) (q : Patch α),
          patches[t]? = some q →
            q (((e.img_patch_h - 1) / 2 : Nat) : Int)
                (((e.img_patch_w - 1) / 2 : Nat) : Int) ch =
              (padSymmetric img e.pad_y e.pad_x).pix
                (p.y + (e.pad_y : Int) - 1) (p.x + (e.pad_x : Int) - 1) ch) := by
  rw [extract_patches_ok e imread input_img pts img hpts himg]
  have hspos : 0 < side := by omega
  have hgpos : 0 < e.num_examples_per_patch := by
    rw [← hside]
    exact Nat.mul_pos hspos hspos
  have hlen : (extractLoop e (padSymmetric img e.pad_y e.pad_x) pts 1).length =
      pts.length * e.num_examples_per_patch := by
    rw [extractLoop_length, offsetList_length _ side hside hodd, hside]
  have htlt : t < pts.length := by
    by_contra hcon
    push_neg at hcon
    rw [List.getElem?_eq_none hcon] at ht
    exact Option.noConfusion ht
  have hk : a * side + b < e.num_examples_per_patch := by
    rw [← hside]
    calc a * side + b < a * side + side := by omega
      _ = (a + 1) * side := by ring
      _ ≤ side * side := Nat.mul_le_mul_right side (by omega)
  have hi : t * e.num_examples_per_patch + (a * side + b) <
      pts.length * e.num_examples_per_patch := by
    calc t * e.num_examples_per_patch + (a * side + b) <
        t * e.num_examples_per_patch + e.num_examples_per_patch := by omega
      _ = (t + 1) * e.num_examples_per_patch := by ring
      _ ≤ pts.length * e.num_examples_per_patch :=
        Nat.mul_le_mul_right _ (by omega)
  have hoffa' : hoff = (a : Int) - ((side / 2 : Nat) : Int) := by
    rw [offsetList_getElem? _ side hside hodd a ha] at hoffa
    exact (Option.some.inj hoffa).symm
  have hoffb' : woff = (b : Int) - ((side / 2 : Nat) : Int) := by
    rw [offsetList_getElem? _ side hside hodd b hb] at hoffb
    exact (Option.some.inj hoffb).symm
  have hentry := extractLoop_entry e (padSymmetric img e.pad_y e.pad_x) pts 1 side
    hside hodd t a b p ht ha hb
  have hpatch :
      (padToLen (pts.length * e.num_examples_per_patch) (fun _ _ _ => default)
        ((extractLoop e (padSymmetric img e.pad_y e.pad_x) pts 1).map
          (fun t => t.2.2)))[t * e.num_examples_per_patch + (a * side + b)]? =
        some (fun i j c =>
          (padSymmetric img e.pad_y e.pad_x).pix (top_h + i) (top_w + j) c) := by
    rw [padToLen_getElem?_left _ _ _ _ (by rw [List.length_map, hlen]; exact hi)]
    rw [List.getElem?_map, hentry, Option.map_some']
    congr 1
    funext i j c
    rw [hth, hoffa', htw, hoffb']
  refine ⟨_, _, _, rfl, hpatch, ?_⟩
  intro hn1 ch q hq
  have hs1 : side = 1 := by
    have hside1 := hside
    rw [hn1] at hside1
    by_contra hcon
    have h2 : 2 ≤ side := by omega
    have h4 := Nat.mul_le_mul h2 h2
    omega
  subst hs1
  have ha0 : a = 0 := by omega
  have hb0 : b = 0 := by omega
  subst ha0
  subst hb0
  rw [show t * e.num_examples_per_patch + (0 * 1 + 0) = t by rw [hn1]; ring] at hpatch
  have hq' : q = fun i j c =>
      (padSymmetric img e.pad_y e.pad_x).pix (top_h + i) (top_w + j) c :=
    Option.some.inj (hq.symm.trans hpatch)
  rw [hq']
  show (padSymmetric img e.pad_y e.pad_x).pix
      (top_h + (((e.img_patch_h - 1) / 2 : Nat) : Int))
      (top_w + (((e.img_patch_w - 1) / 2 : Nat) : Int)) ch =
    (padSymmetric img e.pad_y e.pad_x).pix
      (p.y + (e.pad_y : Int) - 1) (p.x + (e.pad_x : Int) - 1) ch
  have hA : top_h + (((e.img_patch_h - 1) / 2 : Nat) : Int) =
      p.y + (e.pad_y : Int) - 1 := by
    rw [hth, hoffa']
    omega
  have hB : top_w + (((e.img_patch_w - 1) / 2 : Nat) : Int) =
      p.x + (e.pad_x : Int) - 1 := by
    rw [htw, hoffb']
    omega
  rw [hA, hB]

end PatchExtraction

namespace PatchExtraction

/-- C3 witness: the point (label 7, x 3, y 3), 3 × 3 patches, padding 4,
n = 9, at grid cell (0, 0) (offset (-1, -1)): the patch is the window of
the padded 16 × 16 image with top-left corner (6, 6). -/
theorem c3_patch_window_witness :
    ∃ patches labels ids,
      PointsPatchExtractor.extract_patches
          ⟨3, 3, 4, 4, InputPoints.ndarray [⟨7, 3, 3⟩], 9⟩
          (fun _ => (⟨8, 8, 1, fun i j _ => i * 100 + j⟩ : Img Int))
          (InputImg.ndarray ⟨8, 8, 1, fun i j _ => i * 100 + j⟩) =
        Except.ok (patches, labels, ids) ∧
        patches[0 * 9 + (0 * 3 + 0)]? =
          some (fun i j c =>
            (padSymmetric (⟨8, 8, 1, fun i j _ => i * 100 + j⟩ : Img Int) 4 4).pix
              (6 + i) (6 + j) c) ∧
        ((9 : Nat) = 1 → ∀ (ch : Int) (q : Patch Int),
          patches[0]? = some q →
            q (((3 - 1) / 2 : Nat) : Int) (((3 - 1) / 2 : Nat) : Int) ch =
              (padSymmetric (⟨8, 8, 1, fun i j _ => i * 100 + j⟩ : Img Int) 4 4).pix
                (3 + ((4 : Nat) : Int) - 1) (3 + ((4 : Nat) : Int) - 1) ch) :=
  c3_patch_window ⟨3, 3, 4, 4, InputPoints.ndarray [⟨7, 3, 3⟩], 9⟩
    (fun _ => (⟨8, 8, 1, fun i j _ => i * 100 + j⟩ : Img Int))
    (InputImg.ndarray ⟨8, 8, 1, fun i j _ => i * 100 + j⟩)
    [⟨7, 3, 3⟩] ⟨8, 8, 1, fun i j _ => i * 100 + j⟩ 3 0 0 0 ⟨7, 3, 3⟩
    (-1) (-1) 6 6 rfl rfl rfl rfl rfl (by decide) (by decide)
    (show (offsetList 9)[0]? = some (-1) by
      rw [offsetList_getElem? 9 3 rfl rfl 0 (by decide)]
      decide)
    (show (offsetList 9)[0]? = some (-1) by
      rw [offsetList_getElem? 9 3 rfl rfl 0 (by decide)]
      decide)
    (by decide) (by decide) (by decide) (by decide)

end PatchExtraction

namespace PatchExtraction

/-- C6 witness: the theorem applied twice — at a fully valid
configuration (one point, n = 9, padding 4, so the domain hypothesis is
discharged non-vacuously and neither side of the iff holds), and at an
extractor with a non-ndarray points store and a non-array image argument
(where both sides of the iff hold and any error carries one of the two
messages). -/
theorem c6_invalid_input_iff_witness :
    (((∃ err, PointsPatchExtractor.extract_patches
          ⟨3, 3, 4, 4, InputPoints.ndarray [⟨7, 2, 2⟩], 9⟩
          (fun _ => (⟨5, 5, 1, fun _ _ _ => (0 : Nat)⟩ : Img Nat))
          (InputImg.ndarray ⟨5, 5, 1, fun _ _ _ => (0 : Nat)⟩) =
        Except.error err) ↔
        ((⟨3, 3, 4, 4, InputPoints.ndarray [⟨7, 2, 2⟩], 9⟩ :
            PointsPatchExtractor).input_points = InputPoints.other ∨
          InputImg.ndarray (⟨5, 5, 1, fun _ _ _ => (0 : Nat)⟩ : Img Nat) =
            InputImg.other)) ∧
      ∀ err, PointsPatchExtractor.extract_patches
          ⟨3, 3, 4, 4, InputPoints.ndarray [⟨7, 2, 2⟩], 9⟩
          (fun _ => (⟨5, 5, 1, fun _ _ _ => (0 : Nat)⟩ : Img Nat))
          (InputImg.ndarray ⟨5, 5, 1, fun _ _ _ => (0 : Nat)⟩) =
        Except.error err →
        err = PyError.exception "Please input correct csv, json path or csv data" ∨
        err = PyError.exception "Please input correct image path or numpy array") ∧
    (((∃ err, PointsPatchExtractor.extract_patches ⟨3, 3, 1, 1, InputPoints.other, 9⟩
          (fun _ => (⟨2, 2, 1, fun _ _ _ => (0 : Nat)⟩ : Img Nat)) InputImg.other =
        Except.error err) ↔
        ((⟨3, 3, 1, 1, InputPoints.other, 9⟩ :
            PointsPatchExtractor).input_points = InputPoints.other ∨
          (InputImg.other : InputImg Nat) = InputImg.other)) ∧
      ∀ err, PointsPatchExtractor.extract_patches ⟨3, 3, 1, 1, InputPoints.other, 9⟩
          (fun _ => (⟨2, 2, 1, fun _ _ _ => (0 : Nat)⟩ : Img Nat)) InputImg.other =
        Except.error err →
        err = PyError.exception "Please input correct csv, json path or csv data" ∨
        err = PyError.exception "Please input correct image path or numpy array") :=
  ⟨c6_invalid_input_iff ⟨3, 3, 4, 4, InputPoints.ndarray [⟨7, 2, 2⟩], 9⟩
    (fun _ => (⟨5, 5, 1, fun _ _ _ => (0 : Nat)⟩ : Img Nat))
    (InputImg.ndarray ⟨5, 5, 1, fun _ _ _ => (0 : Nat)⟩) 3
    (by
      intro pts img hp hi
      injection hp with hp'
      injection hi with hi'
      subst hp'
      subst hi'
      exact ⟨rfl, rfl, ⟨by norm_num, by norm_num⟩, by decide⟩),
   c6_invalid_input_iff ⟨3, 3, 1, 1, InputPoints.other, 9⟩
    (fun _ => (⟨2, 2, 1, fun _ _ _ => (0 : Nat)⟩ : Img Nat)) InputImg.other 3
    (fun pts img hp hi => InputPoints.noConfusion hp)⟩

/-- C8 witness: merge_patches at the concrete extractor and `none`
(Python's default `patches=None`) raises MethodNotSupported. -/
theorem c8_merge_patches_unsupported_witness :
    PointsPatchExtractor.merge_patches Nat Nat ⟨3, 3, 1, 1, InputPoints.other, 9⟩
        (none : Option Nat) =
        Except.error (PyError.methodNotSupported
          (some "Merge patches not supported for PointsPatchExtractor")) ∧
      ∀ img : Img Nat,
        PointsPatchExtractor.merge_patches Nat Nat ⟨3, 3, 1, 1, InputPoints.other, 9⟩
          (none : Option Nat) ≠ Except.ok img :=
  c8_merge_patches_unsupported Nat Nat ⟨3, 3, 1, 1, InputPoints.other, 9⟩ none

end PatchExtraction
